import Mathlib

/-!
Verification of the grid-layout and animation-timing engine of the
screensaver_grid repository, embedded from src/generate_cabinet_grid.py.

The layout engine is `calculate_grid_layout` (lines 468-549); the
transition/easing calculator is the family of overlay position expressions
built inside `create_grid_segment` (lines 605-633).  Python arithmetic on
the involved quantities is exact enough to model over `ℚ`; Python's `int()`
conversion truncates toward zero and is modelled by `pyInt`.
-/

/-- Python `int()` applied to a (real-valued) quantity: truncation toward
zero.  On nonnegative arguments this is the floor; on negative ones the
ceiling, written `-(⌊-q⌋)` so that the definition stays kernel-computable
(`Rat.floor` is a plain function). -/
def pyInt (q : ℚ) : ℤ :=
  if 0 ≤ q then q.floor else -(-q).floor

/-- `Rat.floor` agrees with the order-theoretic floor. -/
theorem ratFloor_eq_intFloor (q : ℚ) : q.floor = ⌊q⌋ := by
  rw [Rat.floor_def', Rat.floor_def]

/-- `pyInt` written with the order-theoretic floor and ceiling. -/
theorem pyInt_eq (q : ℚ) : pyInt q = if 0 ≤ q then ⌊q⌋ else ⌈q⌉ := by
  unfold pyInt
  rcases le_or_lt 0 q with h | h
  · simp [h, ratFloor_eq_intFloor]
  · simp [not_le.2 h, ratFloor_eq_intFloor, Int.floor_neg]

/-- The global configuration read by `calculate_grid_layout`: the output
canvas (`OUTPUT_WIDTH`, `OUTPUT_HEIGHT`, lines 17-18) and the base cell
dimensions (`video_width`, `video_height`, lines 475-480: either the
cabinet PNG size or 1920x1080). -/
structure Config where
  OUTPUT_WIDTH : ℤ
  OUTPUT_HEIGHT : ℤ
  video_width : ℤ
  video_height : ℤ

/-- The result of `calculate_grid_layout`: scaled cell dimensions and the
dictionary mapping cell index to its (x, y) top-left position; the
dictionary holds keys `0 .. rows*cols - 1` (line 541), so lookup is
`Option`-valued. -/
structure Layout where
  scaled_video_width : ℤ
  scaled_video_height : ℤ
  positions : ℕ → Option (ℤ × ℤ)

/-- The common tail of `calculate_grid_layout` (lines 531-549): total grid
size, centering offsets, and the row-major position of every cell, each
coordinate truncated by `int()`. -/
def finishLayout (W H : ℚ) (sw sh : ℤ) (h_gap v_gap : ℚ) (rows cols : ℕ) : Layout :=
  let total_grid_width : ℚ := sw * cols + h_gap * ((cols : ℚ) - 1)
  let total_grid_height : ℚ := sh * rows + v_gap * ((rows : ℚ) - 1)
  let offset_x : ℚ := (W - total_grid_width) / 2
  let offset_y : ℚ := (H - total_grid_height) / 2
  { scaled_video_width := sw
    scaled_video_height := sh
    positions := fun i =>
      if i < rows * cols then
        some (pyInt (offset_x + (i % cols : ℕ) * ((sw : ℚ) + h_gap)),
              pyInt (offset_y + (i / cols : ℕ) * ((sh : ℚ) + v_gap)))
      else none }

/-- `calculate_grid_layout` (lines 468-549).  Branches on the spacing mode
string exactly as the source does: `"none"` maximizes cell size with no
gaps; `"minimal"` reserves a 10-pixel gap at each edge and between cells
before scaling; anything else is the `"even"` branch, which scales to 95%
of the maximal fit and distributes the leftover space as `(dim+1)` equal
gaps per axis. -/
def calculate_grid_layout (cfg : Config) (mode : String) (rows cols : ℕ) : Layout :=
  let vw : ℚ := cfg.video_width
  let vh : ℚ := cfg.video_height
  let W : ℚ := cfg.OUTPUT_WIDTH
  let H : ℚ := cfg.OUTPUT_HEIGHT
  if mode = "none" then
    let scale_factor : ℚ := min ((W / cols) / vw) ((H / rows) / vh)
    finishLayout W H (pyInt (vw * scale_factor)) (pyInt (vh * scale_factor)) 0 0 rows cols
  else if mode = "minimal" then
    let gap_size : ℚ := 10
    let scale_factor : ℚ :=
      min (((W - gap_size * ((cols : ℚ) + 1)) / cols) / vw)
          (((H - gap_size * ((rows : ℚ) + 1)) / rows) / vh)
    finishLayout W H (pyInt (vw * scale_factor)) (pyInt (vh * scale_factor))
      gap_size gap_size rows cols
  else
    let scale_factor : ℚ := min ((W / cols) / vw) ((H / rows) / vh) * (95 / 100)
    let sw : ℤ := pyInt (vw * scale_factor)
    let sh : ℤ := pyInt (vh * scale_factor)
    finishLayout W H sw sh
      ((W - sw * cols) / ((cols : ℚ) + 1)) ((H - sh * rows) / ((rows : ℚ) + 1)) rows cols

/-- The default interactive configuration: 1920x1080 output, cabinet PNG
cell of 659x741 (lines 17-18 and 33-34). -/
def cfgDefault : Config :=
  { OUTPUT_WIDTH := 1920, OUTPUT_HEIGHT := 1080, video_width := 659, video_height := 741 }

/-- The off-canvas direction new cells slide in from (`slide_from`
argument of `create_grid_segment`, `'right'` or `'bottom'`). -/
inductive SlideFrom where
  | right
  | bottom
deriving DecidableEq

/-- The smoothstep easing factor `3*pow(u,2) - 2*pow(u,3)` (line 628). -/
def sstep (u : ℚ) : ℚ := 3 * u ^ 2 - 2 * u ^ 3

/-- One axis of the overlay position expression built at lines 630-631:
`if(lt(t,D), start + (end - start) * smoothstep(t/D), end)`. -/
def interpAxis (D s e t : ℚ) : ℚ :=
  if t < D then s + (e - s) * sstep (t / D) else e

/-- The time-parameterized position a cell's overlay expression encodes in
`create_grid_segment` (lines 605-633), with the slide duration `D` taken
as a parameter (it is the module-level name `SLIDE_DURATION` in the
source; see `cell_overlay` for the name-resolution modelling).  Returns
`none` when a dictionary lookup in the source would raise (`positions[i]`
out of range, or a persisting cell missing from the previous layout).  A
cell is static when `slide_from is None or not (prev_rows and prev_cols)`
(line 607); otherwise it is new exactly when `i >= prev_num_videos`
(line 610). -/
def segment_position (cfg : Config) (mode : String) (rows cols : ℕ)
    (slide_from : Option SlideFrom) (prev : Option (ℕ × ℕ)) (D : ℚ)
    (i : ℕ) (t : ℚ) : Option (ℚ × ℚ) :=
  match (calculate_grid_layout cfg mode rows cols).positions i with
  | none => none
  | some endP =>
    match slide_from, prev with
    | some slide, some (prev_rows, prev_cols) =>
      if prev_rows = 0 ∨ prev_cols = 0 then
        some ((endP.1 : ℚ), (endP.2 : ℚ))
      else
        let prev_num_videos := prev_rows * prev_cols
        let prevL := calculate_grid_layout cfg mode prev_rows prev_cols
        let startP : Option (ℚ × ℚ) :=
          if prev_num_videos ≤ i then
            some (match slide with
                  | .right => ((cfg.OUTPUT_WIDTH : ℚ), (endP.2 : ℚ))
                  | .bottom => ((endP.1 : ℚ), (cfg.OUTPUT_HEIGHT : ℚ)))
          else
            (prevL.positions i).map (fun p => ((p.1 : ℚ), (p.2 : ℚ)))
        startP.map (fun s =>
          (interpAxis D s.1 (endP.1 : ℚ) t, interpAxis D s.2 (endP.2 : ℚ) t))
    | _, _ => some ((endP.1 : ℚ), (endP.2 : ℚ))

/-- `pyInt` written with floors only, for `norm_num` evaluation. -/
theorem pyInt_eval (q : ℚ) : pyInt q = if 0 ≤ q then ⌊q⌋ else -⌊-q⌋ := by
  unfold pyInt
  rw [ratFloor_eq_intFloor, ratFloor_eq_intFloor]

theorem pyInt_nonneg {q : ℚ} (h : 0 ≤ q) : 0 ≤ pyInt q := by
  rw [pyInt_eval, if_pos h]
  exact Int.floor_nonneg.mpr h

theorem pyInt_le {q : ℚ} (h : 0 ≤ q) : (pyInt q : ℚ) ≤ q := by
  rw [pyInt_eval, if_pos h]
  exact_mod_cast Int.floor_le q

theorem finishLayout_width (W H : ℚ) (sw sh : ℤ) (g gv : ℚ) (rows cols : ℕ) :
    (finishLayout W H sw sh g gv rows cols).scaled_video_width = sw := rfl

theorem finishLayout_height (W H : ℚ) (sw sh : ℤ) (g gv : ℚ) (rows cols : ℕ) :
    (finishLayout W H sw sh g gv rows cols).scaled_video_height = sh := rfl

theorem finishLayout_positions (W H : ℚ) (sw sh : ℤ) (g gv : ℚ) (rows cols i : ℕ) :
    (finishLayout W H sw sh g gv rows cols).positions i =
      if i < rows * cols then
        some (pyInt ((W - ((sw : ℚ) * cols + g * ((cols : ℚ) - 1))) / 2
                + (i % cols : ℕ) * ((sw : ℚ) + g)),
              pyInt ((H - ((sh : ℚ) * rows + gv * ((rows : ℚ) - 1))) / 2
                + (i / cols : ℕ) * ((sh : ℚ) + gv)))
      else none := rfl

/-- One axis of the position bound: a cell at grid coordinate `col < cols`
sits at a nonnegative pixel coordinate, and together with the scaled cell
size stays inside the canvas, provided the total grid size fits. -/
theorem axis_pos_bound (W : ℚ) (sw : ℤ) (g : ℚ) (cols col : ℕ)
    (hc : 1 ≤ cols) (hcol : col < cols) (hsw : 0 ≤ sw) (hg : 0 ≤ g)
    (htw : (sw : ℚ) * cols + g * ((cols : ℚ) - 1) ≤ W) :
    0 ≤ pyInt ((W - ((sw : ℚ) * cols + g * ((cols : ℚ) - 1))) / 2 + (col : ℚ) * ((sw : ℚ) + g)) ∧
    (pyInt ((W - ((sw : ℚ) * cols + g * ((cols : ℚ) - 1))) / 2 + (col : ℚ) * ((sw : ℚ) + g)) : ℚ)
      + (sw : ℚ) ≤ W := by
  have hswQ : (0 : ℚ) ≤ (sw : ℚ) := by exact_mod_cast hsw
  have hcQ : (1 : ℚ) ≤ (cols : ℚ) := by exact_mod_cast hc
  have hcolQ : (col : ℚ) + 1 ≤ (cols : ℚ) := by exact_mod_cast hcol
  have hcol0 : (0 : ℚ) ≤ (col : ℚ) := by positivity
  have hT0 : (0 : ℚ) ≤ (sw : ℚ) * cols + g * ((cols : ℚ) - 1) := by
    have h1 : (0 : ℚ) ≤ (sw : ℚ) * cols := mul_nonneg hswQ (by positivity)
    have h2 : (0 : ℚ) ≤ g * ((cols : ℚ) - 1) := mul_nonneg hg (by linarith)
    linarith
  have hX0 : (0 : ℚ) ≤ (W - ((sw : ℚ) * cols + g * ((cols : ℚ) - 1))) / 2
      + (col : ℚ) * ((sw : ℚ) + g) := by
    have h1 : (0 : ℚ) ≤ (W - ((sw : ℚ) * cols + g * ((cols : ℚ) - 1))) / 2 := by linarith
    have h2 : (0 : ℚ) ≤ (col : ℚ) * ((sw : ℚ) + g) := mul_nonneg hcol0 (by linarith)
    linarith
  refine ⟨pyInt_nonneg hX0, ?_⟩
  have hle := pyInt_le hX0
  have hstep : (col : ℚ) * ((sw : ℚ) + g) ≤ ((cols : ℚ) - 1) * ((sw : ℚ) + g) :=
    mul_le_mul_of_nonneg_right (by linarith) (by linarith)
  nlinarith [hle, hstep, htw]

/-- All positions produced by `finishLayout` lie inside the canvas when
the scaled cell size and gaps are nonnegative and the total grid size
fits on each axis. -/
theorem finishLayout_bounds (W H : ℚ) (sw sh : ℤ) (g gv : ℚ) (rows cols : ℕ)
    (hr : 1 ≤ rows) (hc : 1 ≤ cols)
    (hsw : 0 ≤ sw) (hsh : 0 ≤ sh) (hg : 0 ≤ g) (hgv : 0 ≤ gv)
    (htw : (sw : ℚ) * cols + g * ((cols : ℚ) - 1) ≤ W)
    (hth : (sh : ℚ) * rows + gv * ((rows : ℚ) - 1) ≤ H) :
    ∀ i p, (finishLayout W H sw sh g gv rows cols).positions i = some p →
      0 ≤ p.1 ∧ 0 ≤ p.2 ∧ (p.1 : ℚ) + (sw : ℚ) ≤ W ∧ (p.2 : ℚ) + (sh : ℚ) ≤ H := by
  intro i p hp
  rw [finishLayout_positions] at hp
  by_cases hi : i < rows * cols
  · rw [if_pos hi] at hp
    have hc0 : 0 < cols := hc
    have hcolLt : i % cols < cols := Nat.mod_lt i hc0
    have hrowLt : i / cols < rows := (Nat.div_lt_iff_lt_mul hc0).mpr hi
    have hx := axis_pos_bound W sw g cols (i % cols) hc hcolLt hsw hg htw
    have hy := axis_pos_bound H sh gv rows (i / cols) hr hrowLt hsh hgv hth
    obtain rfl : p = (pyInt ((W - ((sw : ℚ) * cols + g * ((cols : ℚ) - 1))) / 2
                + (i % cols : ℕ) * ((sw : ℚ) + g)),
              pyInt ((H - ((sh : ℚ) * rows + gv * ((rows : ℚ) - 1))) / 2
                + (i / cols : ℕ) * ((sh : ℚ) + gv))) := (Option.some.injEq _ _ ▸ hp).symm
    exact ⟨hx.1, hy.1, hx.2, hy.2⟩
  · rw [if_neg hi] at hp
    exact absurd hp (by simp)

/-- Scaling facts common to the three spacing branches: if the scale
factor is nonnegative and bounded by `(avail / d) / v`, then the scaled
cell size `int(v * scale)` is nonnegative and `d` copies of it fit in
`avail`. -/
theorem axis_scale_facts {avail v s : ℚ} (d : ℕ) (hd : 1 ≤ d) (hv : 0 < v)
    (hs0 : 0 ≤ s) (hs : s ≤ (avail / d) / v) :
    0 ≤ pyInt (v * s) ∧ (pyInt (v * s) : ℚ) * d ≤ avail := by
  have hd0 : (0 : ℚ) < (d : ℚ) := by exact_mod_cast Nat.lt_of_lt_of_le Nat.zero_lt_one hd
  have hvs : 0 ≤ v * s := mul_nonneg hv.le hs0
  have h1 : v * s ≤ avail / d := by
    have h2 := mul_le_mul_of_nonneg_left hs hv.le
    rwa [mul_comm v ((avail / d) / v), div_mul_cancel₀ _ (ne_of_gt hv)] at h2
  refine ⟨pyInt_nonneg hvs, ?_⟩
  have h3 : (pyInt (v * s) : ℚ) ≤ avail / d := le_trans (pyInt_le hvs) h1
  calc (pyInt (v * s) : ℚ) * d ≤ (avail / d) * d :=
        mul_le_mul_of_nonneg_right h3 hd0.le
    _ = avail := div_mul_cancel₀ _ (ne_of_gt hd0)

/-- Integer-level packaging of the bounds: any layout equal to a
`finishLayout` whose parameters satisfy the size facts has in-canvas
scaled dimensions and positions. -/
theorem layout_bounds_of_facts (Wz Hz : ℤ) (rows cols : ℕ) (L : Layout)
    (sw sh : ℤ) (g gv : ℚ) (hr : 1 ≤ rows) (hc : 1 ≤ cols)
    (hL : L = finishLayout (Wz : ℚ) (Hz : ℚ) sw sh g gv rows cols)
    (hsw : 0 ≤ sw) (hsh : 0 ≤ sh) (hg : 0 ≤ g) (hgv : 0 ≤ gv)
    (htw : (sw : ℚ) * cols + g * ((cols : ℚ) - 1) ≤ (Wz : ℚ))
    (hth : (sh : ℚ) * rows + gv * ((rows : ℚ) - 1) ≤ (Hz : ℚ)) :
    (0 ≤ L.scaled_video_width ∧ 0 ≤ L.scaled_video_height ∧
     L.scaled_video_width ≤ Wz ∧ L.scaled_video_height ≤ Hz) ∧
    ∀ i p, L.positions i = some p →
      0 ≤ p.1 ∧ 0 ≤ p.2 ∧
      p.1 + L.scaled_video_width ≤ Wz ∧ p.2 + L.scaled_video_height ≤ Hz := by
  subst hL
  have hswQ : (0 : ℚ) ≤ (sw : ℚ) := by exact_mod_cast hsw
  have hshQ : (0 : ℚ) ≤ (sh : ℚ) := by exact_mod_cast hsh
  have hcQ : (1 : ℚ) ≤ (cols : ℚ) := by exact_mod_cast hc
  have hrQ : (1 : ℚ) ≤ (rows : ℚ) := by exact_mod_cast hr
  have hswW : (sw : ℚ) ≤ (Wz : ℚ) := by
    have h1 : (0 : ℚ) ≤ g * ((cols : ℚ) - 1) := mul_nonneg hg (by linarith)
    nlinarith
  have hshH : (sh : ℚ) ≤ (Hz : ℚ) := by
    have h1 : (0 : ℚ) ≤ gv * ((rows : ℚ) - 1) := mul_nonneg hgv (by linarith)
    nlinarith
  constructor
  · simp only [finishLayout_width, finishLayout_height]
    exact ⟨hsw, hsh, by exact_mod_cast hswW, by exact_mod_cast hshH⟩
  · intro i p hp
    have h := finishLayout_bounds (Wz : ℚ) (Hz : ℚ) sw sh g gv rows cols
      hr hc hsw hsh hg hgv htw hth i p hp
    simp only [finishLayout_width, finishLayout_height]
    exact ⟨h.1, h.2.1, by exact_mod_cast h.2.2.1, by exact_mod_cast h.2.2.2⟩

/-- The main bounds theorem for `calculate_grid_layout`, for every spacing
mode: for the `"minimal"` mode the canvas must additionally leave room for
the reserved 10-pixel gaps (`10*(cols+1) ≤ width`, `10*(rows+1) ≤ height`);
the other modes need only positive inputs.  Yields nonnegative in-canvas
scaled dimensions and in-canvas positions. -/
theorem calculate_grid_layout_bounds (cfg : Config) (mode : String) (rows cols : ℕ)
    (hr : 1 ≤ rows) (hc : 1 ≤ cols)
    (hW : 0 < cfg.OUTPUT_WIDTH) (hH : 0 < cfg.OUTPUT_HEIGHT)
    (hvw : 0 < cfg.video_width) (hvh : 0 < cfg.video_height)
    (hmin : mode = "minimal" →
      10 * ((cols : ℤ) + 1) ≤ cfg.OUTPUT_WIDTH ∧ 10 * ((rows : ℤ) + 1) ≤ cfg.OUTPUT_HEIGHT) :
    (0 ≤ (calculate_grid_layout cfg mode rows cols).scaled_video_width ∧
     0 ≤ (calculate_grid_layout cfg mode rows cols).scaled_video_height ∧
     (calculate_grid_layout cfg mode rows cols).scaled_video_width ≤ cfg.OUTPUT_WIDTH ∧
     (calculate_grid_layout cfg mode rows cols).scaled_video_height ≤ cfg.OUTPUT_HEIGHT) ∧
    ∀ i p, (calculate_grid_layout cfg mode rows cols).positions i = some p →
      0 ≤ p.1 ∧ 0 ≤ p.2 ∧
      p.1 + (calculate_grid_layout cfg mode rows cols).scaled_video_width ≤ cfg.OUTPUT_WIDTH ∧
      p.2 + (calculate_grid_layout cfg mode rows cols).scaled_video_height ≤ cfg.OUTPUT_HEIGHT := by
  have hWQ : (0 : ℚ) < (cfg.OUTPUT_WIDTH : ℚ) := by exact_mod_cast hW
  have hHQ : (0 : ℚ) < (cfg.OUTPUT_HEIGHT : ℚ) := by exact_mod_cast hH
  have hvwQ : (0 : ℚ) < (cfg.video_width : ℚ) := by exact_mod_cast hvw
  have hvhQ : (0 : ℚ) < (cfg.video_height : ℚ) := by exact_mod_cast hvh
  have hcQ : (0 : ℚ) ≤ (cols : ℚ) := by positivity
  have hrQ : (0 : ℚ) ≤ (rows : ℚ) := by positivity
  by_cases h1 : mode = "none"
  · subst h1
    set s : ℚ := min (((cfg.OUTPUT_WIDTH : ℚ) / cols) / cfg.video_width)
        (((cfg.OUTPUT_HEIGHT : ℚ) / rows) / cfg.video_height) with hs
    have hs0 : 0 ≤ s :=
      le_min (div_nonneg (div_nonneg hWQ.le hcQ) hvwQ.le)
        (div_nonneg (div_nonneg hHQ.le hrQ) hvhQ.le)
    have hw := axis_scale_facts cols hc hvwQ hs0 (min_le_left _ _)
    have hh := axis_scale_facts rows hr hvhQ hs0 (min_le_right _ _)
    exact layout_bounds_of_facts cfg.OUTPUT_WIDTH cfg.OUTPUT_HEIGHT rows cols _
      (pyInt ((cfg.video_width : ℚ) * s)) (pyInt ((cfg.video_height : ℚ) * s)) 0 0 hr hc rfl
      hw.1 hh.1 le_rfl le_rfl (by rw [zero_mul, add_zero]; exact hw.2)
      (by rw [zero_mul, add_zero]; exact hh.2)
  · by_cases h2 : mode = "minimal"
    · subst h2
      obtain ⟨hmw, hmh⟩ := hmin rfl
      have hAW : (0 : ℚ) ≤ (cfg.OUTPUT_WIDTH : ℚ) - 10 * ((cols : ℚ) + 1) := by
        have h : ((10 * ((cols : ℤ) + 1) : ℤ) : ℚ) ≤ ((cfg.OUTPUT_WIDTH : ℤ) : ℚ) := by
          exact_mod_cast hmw
        push_cast at h
        linarith
      have hAH : (0 : ℚ) ≤ (cfg.OUTPUT_HEIGHT : ℚ) - 10 * ((rows : ℚ) + 1) := by
        have h : ((10 * ((rows : ℤ) + 1) : ℤ) : ℚ) ≤ ((cfg.OUTPUT_HEIGHT : ℤ) : ℚ) := by
          exact_mod_cast hmh
        push_cast at h
        linarith
      set s : ℚ := min ((((cfg.OUTPUT_WIDTH : ℚ) - 10 * ((cols : ℚ) + 1)) / cols) / cfg.video_width)
          ((((cfg.OUTPUT_HEIGHT : ℚ) - 10 * ((rows : ℚ) + 1)) / rows) / cfg.video_height) with hs
      have hs0 : 0 ≤ s :=
        le_min (div_nonneg (div_nonneg hAW hcQ) hvwQ.le)
          (div_nonneg (div_nonneg hAH hrQ) hvhQ.le)
      have hw := axis_scale_facts cols hc hvwQ hs0 (min_le_left _ _)
      have hh := axis_scale_facts rows hr hvhQ hs0 (min_le_right _ _)
      refine layout_bounds_of_facts cfg.OUTPUT_WIDTH cfg.OUTPUT_HEIGHT rows cols _
        (pyInt ((cfg.video_width : ℚ) * s)) (pyInt ((cfg.video_height : ℚ) * s)) 10 10 hr hc rfl
        hw.1 hh.1 (by norm_num) (by norm_num) ?_ ?_
      · have := hw.2
        linarith
      · have := hh.2
        linarith
    · set s : ℚ := min (((cfg.OUTPUT_WIDTH : ℚ) / cols) / cfg.video_width)
          (((cfg.OUTPUT_HEIGHT : ℚ) / rows) / cfg.video_height) * (95 / 100) with hs
      have hmin0 : 0 ≤ min (((cfg.OUTPUT_WIDTH : ℚ) / cols) / cfg.video_width)
          (((cfg.OUTPUT_HEIGHT : ℚ) / rows) / cfg.video_height) :=
        le_min (div_nonneg (div_nonneg hWQ.le hcQ) hvwQ.le)
          (div_nonneg (div_nonneg hHQ.le hrQ) hvhQ.le)
      have hs0 : 0 ≤ s := mul_nonneg hmin0 (by norm_num)
      have hsmin : s ≤ min (((cfg.OUTPUT_WIDTH : ℚ) / cols) / cfg.video_width)
          (((cfg.OUTPUT_HEIGHT : ℚ) / rows) / cfg.video_height) :=
        mul_le_of_le_one_right hmin0 (by norm_num)
      have hw := axis_scale_facts cols hc hvwQ hs0 (le_trans hsmin (min_le_left _ _))
      have hh := axis_scale_facts rows hr hvhQ hs0 (le_trans hsmin (min_le_right _ _))
      have hL : calculate_grid_layout cfg mode rows cols =
          finishLayout (cfg.OUTPUT_WIDTH : ℚ) (cfg.OUTPUT_HEIGHT : ℚ)
            (pyInt ((cfg.video_width : ℚ) * s)) (pyInt ((cfg.video_height : ℚ) * s))
            (((cfg.OUTPUT_WIDTH : ℚ) - (pyInt ((cfg.video_width : ℚ) * s)) * cols)
              / ((cols : ℚ) + 1))
            (((cfg.OUTPUT_HEIGHT : ℚ) - (pyInt ((cfg.video_height : ℚ) * s)) * rows)
              / ((rows : ℚ) + 1)) rows cols := by
        simp only [calculate_grid_layout, if_neg h1, if_neg h2, hs]
      have hcP : (0 : ℚ) < (cols : ℚ) + 1 := by positivity
      have hrP : (0 : ℚ) < (rows : ℚ) + 1 := by positivity
      have hgw : (0 : ℚ) ≤ ((cfg.OUTPUT_WIDTH : ℚ) - (pyInt ((cfg.video_width : ℚ) * s)) * cols)
          / ((cols : ℚ) + 1) := div_nonneg (by linarith [hw.2]) hcP.le
      have hgh : (0 : ℚ) ≤ ((cfg.OUTPUT_HEIGHT : ℚ) - (pyInt ((cfg.video_height : ℚ) * s)) * rows)
          / ((rows : ℚ) + 1) := div_nonneg (by linarith [hh.2]) hrP.le
      refine layout_bounds_of_facts cfg.OUTPUT_WIDTH cfg.OUTPUT_HEIGHT rows cols _
        (pyInt ((cfg.video_width : ℚ) * s)) (pyInt ((cfg.video_height : ℚ) * s)) _ _
        hr hc hL hw.1 hh.1 hgw hgh ?_ ?_
      · have hA : (0 : ℚ) ≤ (cfg.OUTPUT_WIDTH : ℚ) - (pyInt ((cfg.video_width : ℚ) * s)) * cols :=
          by linarith [hw.2]
        have h4 : ((cfg.OUTPUT_WIDTH : ℚ) - (pyInt ((cfg.video_width : ℚ) * s)) * cols)
            / ((cols : ℚ) + 1) * ((cols : ℚ) - 1)
            ≤ (cfg.OUTPUT_WIDTH : ℚ) - (pyInt ((cfg.video_width : ℚ) * s)) * cols := by
          rw [div_mul_eq_mul_div, div_le_iff₀ hcP]
          nlinarith
        linarith
      · have hA : (0 : ℚ) ≤ (cfg.OUTPUT_HEIGHT : ℚ) - (pyInt ((cfg.video_height : ℚ) * s)) * rows :=
          by linarith [hh.2]
        have h4 : ((cfg.OUTPUT_HEIGHT : ℚ) - (pyInt ((cfg.video_height : ℚ) * s)) * rows)
            / ((rows : ℚ) + 1) * ((rows : ℚ) - 1)
            ≤ (cfg.OUTPUT_HEIGHT : ℚ) - (pyInt ((cfg.video_height : ℚ) * s)) * rows := by
          rw [div_mul_eq_mul_div, div_le_iff₀ hrP]
          nlinarith
        linarith

/-- C3 scenario configuration: canvas 1920x1080, cell aspect 420x315. -/
def cfg43 : Config :=
  { OUTPUT_WIDTH := 1920, OUTPUT_HEIGHT := 1080, video_width := 420, video_height := 315 }

/-- C3: `calculate_grid_layout` on a 2x2 grid, canvas 1920x1080, cell
aspect 420x315, spacing mode `"none"` yields cell size 720x540 and the
four row-major positions (240, 0), (960, 0), (240, 540), (960, 540). -/
theorem layout_2x2_none_scenario :
    (calculate_grid_layout cfg43 "none" 2 2).scaled_video_width = 720 ∧
    (calculate_grid_layout cfg43 "none" 2 2).scaled_video_height = 540 ∧
    (calculate_grid_layout cfg43 "none" 2 2).positions 0 = some (240, 0) ∧
    (calculate_grid_layout cfg43 "none" 2 2).positions 1 = some (960, 0) ∧
    (calculate_grid_layout cfg43 "none" 2 2).positions 2 = some (240, 540) ∧
    (calculate_grid_layout cfg43 "none" 2 2).positions 3 = some (960, 540) := by
  norm_num [calculate_grid_layout, finishLayout, pyInt_eq, cfg43, min_def]

/-- Every spacing branch of `calculate_grid_layout` ends in `finishLayout`. -/
theorem calc_eq_finish (cfg : Config) (mode : String) (rows cols : ℕ) :
    ∃ sw sh g gv, calculate_grid_layout cfg mode rows cols =
      finishLayout (cfg.OUTPUT_WIDTH : ℚ) (cfg.OUTPUT_HEIGHT : ℚ) sw sh g gv rows cols := by
  by_cases h1 : mode = "none"
  · subst h1
    exact ⟨_, _, _, _, rfl⟩
  · by_cases h2 : mode = "minimal"
    · subst h2
      exact ⟨_, _, _, _, rfl⟩
    · exact ⟨pyInt ((cfg.video_width : ℚ) *
          (min (((cfg.OUTPUT_WIDTH : ℚ) / cols) / cfg.video_width)
            (((cfg.OUTPUT_HEIGHT : ℚ) / rows) / cfg.video_height) * (95 / 100))),
        pyInt ((cfg.video_height : ℚ) *
          (min (((cfg.OUTPUT_WIDTH : ℚ) / cols) / cfg.video_width)
            (((cfg.OUTPUT_HEIGHT : ℚ) / rows) / cfg.video_height) * (95 / 100))),
        ((cfg.OUTPUT_WIDTH : ℚ) - (pyInt ((cfg.video_width : ℚ) *
          (min (((cfg.OUTPUT_WIDTH : ℚ) / cols) / cfg.video_width)
            (((cfg.OUTPUT_HEIGHT : ℚ) / rows) / cfg.video_height) * (95 / 100)))) * cols)
          / ((cols : ℚ) + 1),
        ((cfg.OUTPUT_HEIGHT : ℚ) - (pyInt ((cfg.video_height : ℚ) *
          (min (((cfg.OUTPUT_WIDTH : ℚ) / cols) / cfg.video_width)
            (((cfg.OUTPUT_HEIGHT : ℚ) / rows) / cfg.video_height) * (95 / 100)))) * rows)
          / ((rows : ℚ) + 1),
        by simp only [calculate_grid_layout, if_neg h1, if_neg h2]⟩

/-- The positions dictionary of `calculate_grid_layout` holds exactly the
keys `0 .. rows*cols - 1`. -/
theorem calc_positions_isSome (cfg : Config) (mode : String) (rows cols i : ℕ) :
    ((calculate_grid_layout cfg mode rows cols).positions i).isSome ↔ i < rows * cols := by
  obtain ⟨sw, sh, g, gv, hEq⟩ := calc_eq_finish cfg mode rows cols
  rw [hEq, finishLayout_positions]
  by_cases hi : i < rows * cols <;> simp [hi]

theorem calc_positions_some (cfg : Config) (mode : String) {rows cols i : ℕ}
    (hi : i < rows * cols) :
    ∃ p, (calculate_grid_layout cfg mode rows cols).positions i = some p :=
  Option.isSome_iff_exists.mp ((calc_positions_isSome cfg mode rows cols i).mpr hi)

/-- At `t = 0` with a positive duration, the easing expression yields the
start value (smoothstep of 0 is 0). -/
theorem interpAxis_zero {D : ℚ} (hD : 0 < D) (s e : ℚ) : interpAxis D s e 0 = s := by
  unfold interpAxis
  rw [if_pos hD]
  simp [sstep]

/-- Once `t ≥ D` (in particular whenever `D ≤ 0` and `t ≥ 0`), the guard
`lt(t, D)` is false and the expression yields the end value. -/
theorem interpAxis_end {D t : ℚ} (h : D ≤ t) (s e : ℚ) : interpAxis D s e t = e := by
  unfold interpAxis
  rw [if_neg (not_lt.2 h)]

/-- For any cell and any transition arguments, once `t ≥ D` the overlay
expression places the cell exactly at its end position. -/
theorem segment_position_end (cfg : Config) (mode : String) (rows cols : ℕ)
    (slide_from : Option SlideFrom) (prev : Option (ℕ × ℕ)) (D t : ℚ) (i : ℕ) (endP : ℤ × ℤ)
    (hDt : D ≤ t)
    (hEnd : (calculate_grid_layout cfg mode rows cols).positions i = some endP) :
    segment_position cfg mode rows cols slide_from prev D i t =
      some ((endP.1 : ℚ), (endP.2 : ℚ)) := by
  unfold segment_position
  rw [hEnd]
  match slide_from, prev with
  | none, prev => rfl
  | some slide, none => rfl
  | some slide, some (pr, pc) =>
    simp only
    by_cases h0 : pr = 0 ∨ pc = 0
    · rw [if_pos h0]
    · rw [if_neg h0]
      by_cases hnew : pr * pc ≤ i
      · rw [if_pos hnew]
        simp [interpAxis_end hDt]
      · rw [if_neg hnew]
        obtain ⟨p, hp⟩ := calc_positions_some cfg mode (lt_of_not_le hnew)
        rw [hp]
        simp [interpAxis_end hDt]

/-- C6: when the plan's slide duration is zero (or negative), the overlay
expression returns the end position for every `t ≥ 0` and every valid
cell index: the guard `lt(t, SLIDE_DURATION)` is false for all `t ≥ 0`,
so the interpolation branch containing the division `t/SLIDE_DURATION` is
never taken. -/
theorem positionAt_zero_duration (cfg : Config) (mode : String) (rows cols : ℕ)
    (slide_from : Option SlideFrom) (prev : Option (ℕ × ℕ)) (D t : ℚ) (i : ℕ) (endP : ℤ × ℤ)
    (hD : D ≤ 0) (ht : 0 ≤ t)
    (hEnd : (calculate_grid_layout cfg mode rows cols).positions i = some endP) :
    segment_position cfg mode rows cols slide_from prev D i t =
      some ((endP.1 : ℚ), (endP.2 : ℚ)) :=
  segment_position_end cfg mode rows cols slide_from prev D t i endP (le_trans hD ht) hEnd

/-- Witness for C6: a 1x1 → 2x2 transition with slide duration 0 places
cell 0 at its final position (336, 18) already at t = 0. -/
theorem positionAt_zero_duration_witness :
    segment_position cfgDefault "even" 2 2 (some .right) (some (1, 1)) 0 0 0 =
      some ((336 : ℚ), (18 : ℚ)) :=
  positionAt_zero_duration cfgDefault "even" 2 2 (some .right) (some (1, 1)) 0 0 0 (336, 18)
    le_rfl le_rfl
    (by norm_num +decide [calculate_grid_layout, finishLayout, pyInt_eval, min_def, cfgDefault])

/-- At `t = 0` with positive duration, each cell's overlay expression
yields its start position: off-canvas for a new cell (`i` at least the
previous cell count), the previous layout's position for a persisting
cell. -/
theorem segment_position_zero (cfg : Config) (mode : String)
    (rows cols prev_rows prev_cols : ℕ) (slide : SlideFrom) (D : ℚ) (i : ℕ) (endP : ℤ × ℤ)
    (hD : 0 < D) (hpr : 1 ≤ prev_rows) (hpc : 1 ≤ prev_cols)
    (hEnd : (calculate_grid_layout cfg mode rows cols).positions i = some endP) :
    segment_position cfg mode rows cols (some slide) (some (prev_rows, prev_cols)) D i 0 =
      if prev_rows * prev_cols ≤ i then
        some (match slide with
              | .right => ((cfg.OUTPUT_WIDTH : ℚ), (endP.2 : ℚ))
              | .bottom => ((endP.1 : ℚ), (cfg.OUTPUT_HEIGHT : ℚ)))
      else ((calculate_grid_layout cfg mode prev_rows prev_cols).positions i).map
             (fun p => ((p.1 : ℚ), (p.2 : ℚ))) := by
  unfold segment_position
  rw [hEnd]
  simp only
  have h0 : ¬(prev_rows = 0 ∨ prev_cols = 0) := by
    push_neg
    omega
  rw [if_neg h0]
  by_cases hnew : prev_rows * prev_cols ≤ i
  · rw [if_pos hnew]
    cases slide <;> simp [interpAxis_zero hD]
  · rw [if_neg hnew]
    obtain ⟨p, hp⟩ := calc_positions_some cfg mode (lt_of_not_le hnew)
    rw [hp]
    simp [interpAxis_zero hD]

/-- C2 (amended: positive slide duration): with a previous layout present,
at `t = 0` the overlay expression returns the start position (off-canvas
`(canvasWidth, endY)` or `(endX, canvasHeight)` for a new cell, the
previous layout's position for a persisting cell), and for every
`t ≥ slideDuration` it returns the new layout's position exactly. -/
theorem transition_start_and_end (cfg : Config) (mode : String)
    (rows cols prev_rows prev_cols : ℕ) (slide : SlideFrom) (D : ℚ) (i : ℕ) (endP : ℤ × ℤ)
    (hD : 0 < D) (hpr : 1 ≤ prev_rows) (hpc : 1 ≤ prev_cols)
    (hEnd : (calculate_grid_layout cfg mode rows cols).positions i = some endP) :
    (segment_position cfg mode rows cols (some slide) (some (prev_rows, prev_cols)) D i 0 =
      if prev_rows * prev_cols ≤ i then
        some (match slide with
              | .right => ((cfg.OUTPUT_WIDTH : ℚ), (endP.2 : ℚ))
              | .bottom => ((endP.1 : ℚ), (cfg.OUTPUT_HEIGHT : ℚ)))
      else ((calculate_grid_layout cfg mode prev_rows prev_cols).positions i).map
             (fun p => ((p.1 : ℚ), (p.2 : ℚ)))) ∧
    ∀ t, D ≤ t →
      segment_position cfg mode rows cols (some slide) (some (prev_rows, prev_cols)) D i t =
        some ((endP.1 : ℚ), (endP.2 : ℚ)) :=
  ⟨segment_position_zero cfg mode rows cols prev_rows prev_cols slide D i endP hD hpr hpc hEnd,
   fun t ht => segment_position_end cfg mode rows cols (some slide)
     (some (prev_rows, prev_cols)) D t i endP ht hEnd⟩

/-- Witness for C2 on the 1x1 → 2x2, slide-from-right scenario: new cell
index 1 starts at x = 1920 (the canvas width) at t = 0 and sits exactly at
its final position (1128, 18) at t = slideDuration. -/
theorem transition_start_and_end_witness :
    segment_position cfgDefault "even" 2 2 (some .right) (some (1, 1)) 1 1 0 =
      some ((1920 : ℚ), (18 : ℚ)) ∧
    segment_position cfgDefault "even" 2 2 (some .right) (some (1, 1)) 1 1 1 =
      some ((1128 : ℚ), (18 : ℚ)) := by
  have h := transition_start_and_end cfgDefault "even" 2 2 1 1 .right 1 1 (1128, 18)
    (by norm_num) le_rfl le_rfl
    (by norm_num +decide [calculate_grid_layout, finishLayout, pyInt_eval, min_def, cfgDefault])
  constructor
  · have h1 := h.1
    rw [if_pos (by norm_num : 1 * 1 ≤ 1)] at h1
    simpa [cfgDefault] using h1
  · simpa using h.2 1 le_rfl

/-- Counterexample to C2 as stated: in a plan with `slideDuration = 0`,
`positionAt` at `t = 0` returns the end position (336, 18), not the start
position of persisting cell 0, which in the previous 1x1 layout is
(504, 27). -/
theorem transition_t0_zero_duration_cex :
    segment_position cfgDefault "even" 2 2 (some .right) (some (1, 1)) 0 0 0 =
      some ((336 : ℚ), (18 : ℚ)) ∧
    (calculate_grid_layout cfgDefault "even" 1 1).positions 0 = some (504, 27) ∧
    ((336 : ℚ), (18 : ℚ)) ≠ ((504 : ℚ), (27 : ℚ)) := by
  refine ⟨?_, ?_, by norm_num⟩
  · norm_num +decide [segment_position, calculate_grid_layout, finishLayout, pyInt_eval,
      min_def, cfgDefault, interpAxis]
  · norm_num +decide [calculate_grid_layout, finishLayout, pyInt_eval, min_def, cfgDefault]

theorem sstep_nonneg {u : ℚ} (h0 : 0 ≤ u) (h1 : u ≤ 1) : 0 ≤ sstep u := by
  unfold sstep
  nlinarith [mul_nonneg (mul_nonneg h0 h0) (by linarith : (0 : ℚ) ≤ 3 - 2 * u)]

theorem sstep_le_one {u : ℚ} (h0 : 0 ≤ u) : sstep u ≤ 1 := by
  unfold sstep
  nlinarith [sq_nonneg (1 - u), mul_nonneg h0 (sq_nonneg (1 - u))]

/-- The smoothstep factor is monotone on `[0, 1]`. -/
theorem sstep_mono {a b : ℚ} (h0 : 0 ≤ a) (hab : a ≤ b) (h1 : b ≤ 1) : sstep a ≤ sstep b := by
  have ha1 : a ≤ 1 := hab.trans h1
  have hb0 : 0 ≤ b := h0.trans hab
  unfold sstep
  nlinarith [mul_nonneg (sub_nonneg.2 hab) (mul_nonneg h0 (sub_nonneg.2 ha1)),
    mul_nonneg (sub_nonneg.2 hab) (mul_nonneg hb0 (sub_nonneg.2 h1)),
    mul_nonneg (sub_nonneg.2 hab) (mul_nonneg h0 (sub_nonneg.2 h1)),
    mul_nonneg (sub_nonneg.2 hab) (mul_nonneg hb0 (sub_nonneg.2 ha1))]

/-- C7: on each axis independently, with positive duration and fixed start
and end, the overlay expression is monotone in `t` on `[0, slideDuration]`
toward the end value: non-decreasing when `s ≤ e`, non-increasing when
`e ≤ s`. -/
theorem interp_monotone (D s e t₁ t₂ : ℚ) (hD : 0 < D) (ht0 : 0 ≤ t₁)
    (h12 : t₁ ≤ t₂) (ht2 : t₂ ≤ D) :
    (s ≤ e → interpAxis D s e t₁ ≤ interpAxis D s e t₂) ∧
    (e ≤ s → interpAxis D s e t₂ ≤ interpAxis D s e t₁) := by
  have hu10 : 0 ≤ t₁ / D := div_nonneg ht0 hD.le
  have hu20 : 0 ≤ t₂ / D := div_nonneg (ht0.trans h12) hD.le
  have hu12 : t₁ / D ≤ t₂ / D := by gcongr
  have hu21 : t₂ / D ≤ 1 := (div_le_one hD).mpr ht2
  have hu11 : t₁ / D ≤ 1 := hu12.trans hu21
  have hm := sstep_mono hu10 hu12 hu21
  have hs1 := sstep_le_one hu10
  unfold interpAxis
  by_cases h2 : t₂ < D
  · have h1 : t₁ < D := lt_of_le_of_lt h12 h2
    rw [if_pos h1, if_pos h2]
    constructor
    · intro hse
      nlinarith [mul_le_mul_of_nonneg_left hm (by linarith : (0 : ℚ) ≤ e - s)]
    · intro hes
      nlinarith [mul_le_mul_of_nonneg_left hm (by linarith : (0 : ℚ) ≤ s - e)]
  · rw [if_neg h2]
    by_cases h1 : t₁ < D
    · rw [if_pos h1]
      constructor
      · intro hse
        nlinarith [mul_le_mul_of_nonneg_left hs1 (by linarith : (0 : ℚ) ≤ e - s)]
      · intro hes
        nlinarith [mul_le_mul_of_nonneg_left hs1 (by linarith : (0 : ℚ) ≤ s - e)]
    · rw [if_neg h1]
      exact ⟨fun _ => le_rfl, fun _ => le_rfl⟩

/-- Witness for C7 at duration 2, start 0, end 10, times 1/2 ≤ 1. -/
theorem interp_monotone_witness :
    interpAxis 2 0 10 (1 / 2) ≤ interpAxis 2 0 10 1 :=
  (interp_monotone 2 0 10 (1 / 2) 1 (by norm_num) (by norm_num) (by norm_num)
    (by norm_num)).1 (by norm_num)

/-- C1 (amended: for the `"minimal"` policy the canvas must leave room
for the reserved 10-pixel gaps, i.e. `10*(cols+1) ≤ width` and
`10*(rows+1) ≤ height`): the scaled cell dimensions are never negative
and never exceed the canvas. -/
theorem scaled_dims_nonneg_in_canvas (cfg : Config) (mode : String) (rows cols : ℕ)
    (hr : 1 ≤ rows) (hc : 1 ≤ cols)
    (hW : 0 < cfg.OUTPUT_WIDTH) (hH : 0 < cfg.OUTPUT_HEIGHT)
    (hvw : 0 < cfg.video_width) (hvh : 0 < cfg.video_height)
    (hmin : mode = "minimal" →
      10 * ((cols : ℤ) + 1) ≤ cfg.OUTPUT_WIDTH ∧ 10 * ((rows : ℤ) + 1) ≤ cfg.OUTPUT_HEIGHT) :
    0 ≤ (calculate_grid_layout cfg mode rows cols).scaled_video_width ∧
    0 ≤ (calculate_grid_layout cfg mode rows cols).scaled_video_height ∧
    (calculate_grid_layout cfg mode rows cols).scaled_video_width ≤ cfg.OUTPUT_WIDTH ∧
    (calculate_grid_layout cfg mode rows cols).scaled_video_height ≤ cfg.OUTPUT_HEIGHT :=
  (calculate_grid_layout_bounds cfg mode rows cols hr hc hW hH hvw hvh hmin).1

/-- Witness for C1 on the default 1920x1080 cabinet configuration with
the `"minimal"` policy and a 2x2 grid. -/
theorem scaled_dims_nonneg_in_canvas_witness :
    0 ≤ (calculate_grid_layout cfgDefault "minimal" 2 2).scaled_video_width ∧
    0 ≤ (calculate_grid_layout cfgDefault "minimal" 2 2).scaled_video_height ∧
    (calculate_grid_layout cfgDefault "minimal" 2 2).scaled_video_width ≤
      cfgDefault.OUTPUT_WIDTH ∧
    (calculate_grid_layout cfgDefault "minimal" 2 2).scaled_video_height ≤
      cfgDefault.OUTPUT_HEIGHT :=
  scaled_dims_nonneg_in_canvas cfgDefault "minimal" 2 2 (by norm_num) (by norm_num)
    (by norm_num [cfgDefault]) (by norm_num [cfgDefault]) (by norm_num [cfgDefault])
    (by norm_num [cfgDefault]) (fun _ => by norm_num [cfgDefault])

/-- Counterexample to C1 as stated: with the `"minimal"` policy on a
positive 15x15 canvas and cell aspect 659x741, the gap reservation
`15 - 10*2` is negative, the scale factor is negative, and the scaled
cell width comes out as -5. -/
theorem scaled_dims_minimal_cex :
    (calculate_grid_layout
      { OUTPUT_WIDTH := 15, OUTPUT_HEIGHT := 15, video_width := 659, video_height := 741 }
      "minimal" 1 1).scaled_video_width < 0 := by
  norm_num +decide [calculate_grid_layout, finishLayout, pyInt_eval, min_def]

/-- C5 (amended: for the `"minimal"` policy the canvas must satisfy
`10*(cols+1) ≤ width` and `10*(rows+1) ≤ height`): every position of the
computed layout, extended by the scaled cell dimensions, lies within the
canvas. -/
theorem positions_in_canvas (cfg : Config) (mode : String) (rows cols : ℕ)
    (hr : 1 ≤ rows) (hc : 1 ≤ cols)
    (hW : 0 < cfg.OUTPUT_WIDTH) (hH : 0 < cfg.OUTPUT_HEIGHT)
    (hvw : 0 < cfg.video_width) (hvh : 0 < cfg.video_height)
    (hmin : mode = "minimal" →
      10 * ((cols : ℤ) + 1) ≤ cfg.OUTPUT_WIDTH ∧ 10 * ((rows : ℤ) + 1) ≤ cfg.OUTPUT_HEIGHT) :
    ∀ i p, (calculate_grid_layout cfg mode rows cols).positions i = some p →
      0 ≤ p.1 ∧ 0 ≤ p.2 ∧
      p.1 + (calculate_grid_layout cfg mode rows cols).scaled_video_width ≤
        cfg.OUTPUT_WIDTH ∧
      p.2 + (calculate_grid_layout cfg mode rows cols).scaled_video_height ≤
        cfg.OUTPUT_HEIGHT :=
  (calculate_grid_layout_bounds cfg mode rows cols hr hc hW hH hvw hvh hmin).2

/-- Witness for C5: position 0 of the default even-spacing 2x2 layout. -/
theorem positions_in_canvas_witness :
    0 ≤ ((336 : ℤ), (18 : ℤ)).1 ∧ 0 ≤ ((336 : ℤ), (18 : ℤ)).2 ∧
    ((336 : ℤ), (18 : ℤ)).1 + (calculate_grid_layout cfgDefault "even" 2 2).scaled_video_width ≤
      cfgDefault.OUTPUT_WIDTH ∧
    ((336 : ℤ), (18 : ℤ)).2 + (calculate_grid_layout cfgDefault "even" 2 2).scaled_video_height ≤
      cfgDefault.OUTPUT_HEIGHT :=
  positions_in_canvas cfgDefault "even" 2 2 (by norm_num) (by norm_num)
    (by norm_num [cfgDefault]) (by norm_num [cfgDefault]) (by norm_num [cfgDefault])
    (by norm_num [cfgDefault]) (fun h => by simp at h) 0 (336, 18)
    (by norm_num +decide [calculate_grid_layout, finishLayout, pyInt_eval, min_def, cfgDefault])

/-- Counterexample to C5 as stated: with the `"minimal"` policy on a
positive 100x5 canvas, cell aspect 1000x1, shape 100x3, the
height-constrained scale factor is very negative and cell 2 is placed at
x = -4965, outside the canvas. -/
theorem positions_minimal_cex :
    (calculate_grid_layout
      { OUTPUT_WIDTH := 100, OUTPUT_HEIGHT := 5, video_width := 1000, video_height := 1 }
      "minimal" 100 3).positions 2 = some (-4965, 7) ∧ (-4965 : ℤ) < 0 := by
  refine ⟨?_, by norm_num⟩
  norm_num +decide [calculate_grid_layout, finishLayout, pyInt_eval, min_def]

/-- The `"even"` branch of `calculate_grid_layout`, spelled out. -/
theorem calc_even_eq (cfg : Config) (rows cols : ℕ) :
    calculate_grid_layout cfg "even" rows cols =
      finishLayout (cfg.OUTPUT_WIDTH : ℚ) (cfg.OUTPUT_HEIGHT : ℚ)
        (pyInt ((cfg.video_width : ℚ) *
          (min (((cfg.OUTPUT_WIDTH : ℚ) / cols) / cfg.video_width)
            (((cfg.OUTPUT_HEIGHT : ℚ) / rows) / cfg.video_height) * (95 / 100))))
        (pyInt ((cfg.video_height : ℚ) *
          (min (((cfg.OUTPUT_WIDTH : ℚ) / cols) / cfg.video_width)
            (((cfg.OUTPUT_HEIGHT : ℚ) / rows) / cfg.video_height) * (95 / 100))))
        (((cfg.OUTPUT_WIDTH : ℚ) - (pyInt ((cfg.video_width : ℚ) *
          (min (((cfg.OUTPUT_WIDTH : ℚ) / cols) / cfg.video_width)
            (((cfg.OUTPUT_HEIGHT : ℚ) / rows) / cfg.video_height) * (95 / 100)))) * cols)
          / ((cols : ℚ) + 1))
        (((cfg.OUTPUT_HEIGHT : ℚ) - (pyInt ((cfg.video_height : ℚ) *
          (min (((cfg.OUTPUT_WIDTH : ℚ) / cols) / cfg.video_width)
            (((cfg.OUTPUT_HEIGHT : ℚ) / rows) / cfg.video_height) * (95 / 100)))) * rows)
          / ((rows : ℚ) + 1)) rows cols := rfl

/-- In the `"even"` branch the scaled width is nonnegative and `cols`
copies fit in the canvas width. -/
theorem even_sw_facts (cfg : Config) (rows cols : ℕ) (hr : 1 ≤ rows) (hc : 1 ≤ cols)
    (hW : 0 < cfg.OUTPUT_WIDTH) (hH : 0 < cfg.OUTPUT_HEIGHT)
    (hvw : 0 < cfg.video_width) (hvh : 0 < cfg.video_height) :
    0 ≤ (calculate_grid_layout cfg "even" rows cols).scaled_video_width ∧
    ((calculate_grid_layout cfg "even" rows cols).scaled_video_width : ℚ) * cols ≤
      (cfg.OUTPUT_WIDTH : ℚ) := by
  have hWQ : (0 : ℚ) < (cfg.OUTPUT_WIDTH : ℚ) := by exact_mod_cast hW
  have hHQ : (0 : ℚ) < (cfg.OUTPUT_HEIGHT : ℚ) := by exact_mod_cast hH
  have hvwQ : (0 : ℚ) < (cfg.video_width : ℚ) := by exact_mod_cast hvw
  have hvhQ : (0 : ℚ) < (cfg.video_height : ℚ) := by exact_mod_cast hvh
  have hcQ : (0 : ℚ) ≤ (cols : ℚ) := by positivity
  have hrQ : (0 : ℚ) ≤ (rows : ℚ) := by positivity
  have hmin0 : 0 ≤ min (((cfg.OUTPUT_WIDTH : ℚ) / cols) / cfg.video_width)
      (((cfg.OUTPUT_HEIGHT : ℚ) / rows) / cfg.video_height) :=
    le_min (div_nonneg (div_nonneg hWQ.le hcQ) hvwQ.le)
      (div_nonneg (div_nonneg hHQ.le hrQ) hvhQ.le)
  have hs0 : 0 ≤ min (((cfg.OUTPUT_WIDTH : ℚ) / cols) / cfg.video_width)
      (((cfg.OUTPUT_HEIGHT : ℚ) / rows) / cfg.video_height) * (95 / 100) :=
    mul_nonneg hmin0 (by norm_num)
  have hsmin : min (((cfg.OUTPUT_WIDTH : ℚ) / cols) / cfg.video_width)
      (((cfg.OUTPUT_HEIGHT : ℚ) / rows) / cfg.video_height) * (95 / 100) ≤
      ((cfg.OUTPUT_WIDTH : ℚ) / cols) / cfg.video_width :=
    le_trans (mul_le_of_le_one_right hmin0 (by norm_num)) (min_le_left _ _)
  have hw := axis_scale_facts cols hc hvwQ hs0 hsmin
  rw [calc_even_eq, finishLayout_width]
  exact hw

/-- With an offset that exactly equals the gap (the `"even"` situation),
the pixel-level left edge gap is at most the pixel-level gap between the
first two cells of the top row. -/
theorem finish_edge_le_inter (W H : ℚ) (sw sh : ℤ) (g gv : ℚ) (rows cols : ℕ)
    (hr : 1 ≤ rows) (hc : 2 ≤ cols) (hsw : 0 ≤ sw) (hg : 0 ≤ g)
    (hoff : (W - ((sw : ℚ) * cols + g * ((cols : ℚ) - 1))) / 2 = g) :
    ∀ p0 p1, (finishLayout W H sw sh g gv rows cols).positions 0 = some p0 →
      (finishLayout W H sw sh g gv rows cols).positions 1 = some p1 →
      p0.1 ≤ p1.1 - p0.1 - sw := by
  intro p0 p1 hp0 hp1
  have h2 : 1 < rows * cols := by
    have := Nat.mul_le_mul hr hc
    omega
  rw [finishLayout_positions, if_pos (by omega : 0 < rows * cols)] at hp0
  rw [finishLayout_positions, if_pos h2] at hp1
  have hq0 : (W - ((sw : ℚ) * cols + g * ((cols : ℚ) - 1))) / 2
      + ((0 % cols : ℕ) : ℚ) * ((sw : ℚ) + g) = g := by
    rw [hoff]
    simp
  have hq1 : (W - ((sw : ℚ) * cols + g * ((cols : ℚ) - 1))) / 2
      + ((1 % cols : ℕ) : ℚ) * ((sw : ℚ) + g) = 2 * g + (sw : ℚ) := by
    rw [hoff, Nat.mod_eq_of_lt (by omega : 1 < cols)]
    push_cast
    ring
  rw [hq0] at hp0
  rw [hq1] at hp1
  have hswQ : (0 : ℚ) ≤ (sw : ℚ) := by exact_mod_cast hsw
  have h2g : (0 : ℚ) ≤ 2 * g + (sw : ℚ) := by linarith
  obtain rfl := (Option.some.inj hp0)
  obtain rfl := (Option.some.inj hp1)
  simp only
  rw [pyInt_eval, if_pos hg, pyInt_eval, if_pos h2g, Int.floor_add_int]
  have key : 2 * ⌊g⌋ ≤ ⌊2 * g⌋ := by
    apply Int.le_floor.mpr
    push_cast
    linarith [Int.floor_le g]
  omega

/-- C4 (amended): in the Even policy the exact centering offset equals the
even gap — the edge-to-canvas gap equals, rather than exceeds, the
inter-cell gap; at the pixel level (after `int()` truncation of the
positions) the left edge gap never exceeds the gap between the first two
cells of the top row. -/
theorem even_edge_gap_equals_inter (cfg : Config) (rows cols : ℕ)
    (hr : 1 ≤ rows) (hc : 2 ≤ cols)
    (hW : 0 < cfg.OUTPUT_WIDTH) (hH : 0 < cfg.OUTPUT_HEIGHT)
    (hvw : 0 < cfg.video_width) (hvh : 0 < cfg.video_height) :
    ((cfg.OUTPUT_WIDTH : ℚ) -
        (((calculate_grid_layout cfg "even" rows cols).scaled_video_width : ℚ) * cols +
          (((cfg.OUTPUT_WIDTH : ℚ) -
            ((calculate_grid_layout cfg "even" rows cols).scaled_video_width : ℚ) * cols) /
            ((cols : ℚ) + 1)) * ((cols : ℚ) - 1))) / 2 =
      ((cfg.OUTPUT_WIDTH : ℚ) -
        ((calculate_grid_layout cfg "even" rows cols).scaled_video_width : ℚ) * cols) /
        ((cols : ℚ) + 1) ∧
    ∀ p0 p1, (calculate_grid_layout cfg "even" rows cols).positions 0 = some p0 →
      (calculate_grid_layout cfg "even" rows cols).positions 1 = some p1 →
      p0.1 ≤ p1.1 - p0.1 - (calculate_grid_layout cfg "even" rows cols).scaled_video_width := by
  have hne : ((cols : ℚ) + 1) ≠ 0 := by positivity
  constructor
  · field_simp
    ring
  · have hfacts := even_sw_facts cfg rows cols hr (by omega) hW hH hvw hvh
    have hg : (0 : ℚ) ≤ ((cfg.OUTPUT_WIDTH : ℚ) -
        ((calculate_grid_layout cfg "even" rows cols).scaled_video_width : ℚ) * cols) /
        ((cols : ℚ) + 1) := div_nonneg (by linarith [hfacts.2]) (by positivity)
    have hoff : ((cfg.OUTPUT_WIDTH : ℚ) -
        (((calculate_grid_layout cfg "even" rows cols).scaled_video_width : ℚ) * cols +
          (((cfg.OUTPUT_WIDTH : ℚ) -
            ((calculate_grid_layout cfg "even" rows cols).scaled_video_width : ℚ) * cols) /
            ((cols : ℚ) + 1)) * ((cols : ℚ) - 1))) / 2 =
      ((cfg.OUTPUT_WIDTH : ℚ) -
        ((calculate_grid_layout cfg "even" rows cols).scaled_video_width : ℚ) * cols) /
        ((cols : ℚ) + 1) := by
      field_simp
      ring
    intro p0 p1 hp0 hp1
    rw [calc_even_eq] at hp0 hp1
    have hwidth := calc_even_eq cfg rows cols
    have := finish_edge_le_inter (cfg.OUTPUT_WIDTH : ℚ) (cfg.OUTPUT_HEIGHT : ℚ) _ _ _ _
      rows cols hr hc ?_ ?_ ?_ p0 p1 hp0 hp1
    · rw [hwidth, finishLayout_width]
      exact this
    · have h1 := hfacts.1
      rwa [hwidth, finishLayout_width] at h1
    · have h1 := hg
      rwa [hwidth, finishLayout_width] at h1
    · have h1 := hoff
      rw [hwidth, finishLayout_width] at h1
      exact h1

/-- Witness for C4 on the default configuration, 2x2 grid: the even gap
is 336 and both gaps agree. -/
theorem even_edge_gap_equals_inter_witness :
    (calculate_grid_layout cfgDefault "even" 2 2).positions 0 = some (336, 18) ∧
    (calculate_grid_layout cfgDefault "even" 2 2).positions 1 = some (1128, 18) ∧
    ((336 : ℤ), (18 : ℤ)).1 ≤ ((1128 : ℤ), (18 : ℤ)).1 - ((336 : ℤ), (18 : ℤ)).1 -
      (calculate_grid_layout cfgDefault "even" 2 2).scaled_video_width := by
  have hp0 : (calculate_grid_layout cfgDefault "even" 2 2).positions 0 = some (336, 18) := by
    norm_num +decide [calculate_grid_layout, finishLayout, pyInt_eval, min_def, cfgDefault]
  have hp1 : (calculate_grid_layout cfgDefault "even" 2 2).positions 1 = some (1128, 18) := by
    norm_num +decide [calculate_grid_layout, finishLayout, pyInt_eval, min_def, cfgDefault]
  refine ⟨hp0, hp1, ?_⟩
  exact (even_edge_gap_equals_inter cfgDefault 2 2 (by norm_num) (by norm_num)
    (by norm_num [cfgDefault]) (by norm_num [cfgDefault]) (by norm_num [cfgDefault])
    (by norm_num [cfgDefault])).2 (336, 18) (1128, 18) hp0 hp1

/-- Counterexample to C4 as stated: on the default configuration with a
2x2 grid the produced edge gap is 336 pixels and the produced inter-cell
gap is also 336 pixels, so the edge gap is not larger. -/
theorem even_edge_gap_cex :
    (calculate_grid_layout cfgDefault "even" 2 2).positions 0 = some (336, 18) ∧
    (calculate_grid_layout cfgDefault "even" 2 2).positions 1 = some (1128, 18) ∧
    (calculate_grid_layout cfgDefault "even" 2 2).scaled_video_width = 456 ∧
    ¬((336 : ℤ) > 1128 - 336 - 456) := by
  refine ⟨?_, ?_, ?_, by norm_num⟩ <;>
    norm_num +decide [calculate_grid_layout, finishLayout, pyInt_eval, min_def, cfgDefault]

/-- C8: a 1x1 grid under any spacing mode yields exactly one position,
the centering offset `((canvas - cell)/2, (canvas - cell)/2)` (truncated
to integer pixels), the gap terms having coefficient `dim - 1 = 0`. -/
theorem single_cell_centered (cfg : Config) (mode : String) (i : ℕ) :
    (calculate_grid_layout cfg mode 1 1).positions i =
      if i = 0 then
        some (pyInt (((cfg.OUTPUT_WIDTH : ℚ) -
                ((calculate_grid_layout cfg mode 1 1).scaled_video_width : ℚ)) / 2),
              pyInt (((cfg.OUTPUT_HEIGHT : ℚ) -
                ((calculate_grid_layout cfg mode 1 1).scaled_video_height : ℚ)) / 2))
      else none := by
  obtain ⟨sw, sh, g, gv, hEq⟩ := calc_eq_finish cfg mode 1 1
  rw [hEq, finishLayout_positions, finishLayout_width, finishLayout_height]
  by_cases hi : i = 0
  · subst hi
    rw [if_pos (by norm_num : (0 : ℕ) < 1 * 1), if_pos rfl]
    simp
  · rw [if_neg (by omega : ¬(i < 1 * 1)), if_neg hi]

/-- Python runtime errors relevant to `create_grid_segment`: an undefined
global name (`NameError`) or a missing dictionary key (`KeyError`). -/
inductive PyErr where
  | nameError
  | keyError
deriving DecidableEq

/-- Evaluating the module-level name `SLIDE_DURATION` (line 627):
`generate_cabinet_grid.py` never defines a global of that name, so the
lookup raises `NameError`. -/
def SLIDE_DURATION_value : Except PyErr ℚ := .error .nameError

/-- The overlay directive built for one cell in `create_grid_segment`:
either a static overlay at the end position (line 609) or an animated
expression (lines 625-633). -/
inductive CellOverlay where
  | static (endP : ℤ × ℤ)
  | animated (startP : ℚ × ℚ) (endP : ℤ × ℤ) (D : ℚ)
deriving DecidableEq

/-- The construction of cell `i`'s overlay in `create_grid_segment`
(lines 596-633): looks up the end position, chooses the static branch
when `slide_from is None or not (prev_rows and prev_cols)`, and otherwise
computes the start position and then evaluates `SLIDE_DURATION` to build
the easing expression (line 627). -/
def cell_overlay (cfg : Config) (mode : String) (rows cols : ℕ)
    (slide_from : Option SlideFrom) (prev : Option (ℕ × ℕ)) (i : ℕ) :
    Except PyErr CellOverlay :=
  match (calculate_grid_layout cfg mode rows cols).positions i with
  | none => .error .keyError
  | some endP =>
    match slide_from, prev with
    | some slide, some (prev_rows, prev_cols) =>
      if prev_rows = 0 ∨ prev_cols = 0 then .ok (.static endP)
      else
        let startP : Except PyErr (ℚ × ℚ) :=
          if prev_rows * prev_cols ≤ i then
            .ok (match slide with
                 | .right => ((cfg.OUTPUT_WIDTH : ℚ), (endP.2 : ℚ))
                 | .bottom => ((endP.1 : ℚ), (cfg.OUTPUT_HEIGHT : ℚ)))
          else
            match (calculate_grid_layout cfg mode prev_rows prev_cols).positions i with
            | none => .error .keyError
            | some p => .ok ((p.1 : ℚ), (p.2 : ℚ))
        do
          let s ← startP
          let D ← SLIDE_DURATION_value
          return .animated s endP D
    | _, _ => .ok (.static endP)

/-- The animation arguments `main` passes to `create_grid_segment`
(line 802): always `None, None, None`. -/
def main_slide_from : Option SlideFrom := none

def main_prev_shape : Option (ℕ × ℕ) := none

/-- C9: under `main`'s call pattern (`slide_from = None`, no previous
shape) every cell's overlay is built statically at its final position and
no error is raised; whereas actually entering the animated branch (some
slide direction and a nonempty previous shape) fails with `NameError`
because `SLIDE_DURATION` is undefined — shown here on the 1x1 → 2x2
transition at cell 3. -/
theorem main_segments_static (cfg : Config) (mode : String) (rows cols i : ℕ)
    (hi : i < rows * cols) :
    (∃ p, (calculate_grid_layout cfg mode rows cols).positions i = some p ∧
      cell_overlay cfg mode rows cols main_slide_from main_prev_shape i = .ok (.static p)) ∧
    cell_overlay cfgDefault "even" 2 2 (some .right) (some (1, 1)) 3 = .error .nameError := by
  constructor
  · obtain ⟨p, hp⟩ := calc_positions_some cfg mode hi
    exact ⟨p, hp, by simp [cell_overlay, main_slide_from, main_prev_shape, hp]⟩
  · have hp3 : (calculate_grid_layout cfgDefault "even" 2 2).positions 3 = some (1128, 549) := by
      norm_num +decide [calculate_grid_layout, finishLayout, pyInt_eval, min_def, cfgDefault]
    unfold cell_overlay
    rw [hp3]
    rfl

/-- Witness for C9 at the default configuration, 2x2 grid, cell 0. -/
theorem main_segments_static_witness :
    (∃ p, (calculate_grid_layout cfgDefault "even" 2 2).positions 0 = some p ∧
      cell_overlay cfgDefault "even" 2 2 main_slide_from main_prev_shape 0 = .ok (.static p)) ∧
    cell_overlay cfgDefault "even" 2 2 (some .right) (some (1, 1)) 3 = .error .nameError :=
  main_segments_static cfgDefault "even" 2 2 0 (by norm_num)

/-- C10: the positions dictionary of `calculate_grid_layout` is keyed
exactly by `0 .. rows*cols - 1`, so inside a transition every persisting
cell (index below the previous cell count) finds its entry in the previous
layout and the position function is defined (no `IncompleteTransition`). -/
theorem persisting_lookup_total (cfg : Config) (mode : String) :
    (∀ rows cols i,
      ((calculate_grid_layout cfg mode rows cols).positions i).isSome ↔ i < rows * cols) ∧
    ∀ rows cols prev_rows prev_cols (slide : SlideFrom) (D t : ℚ) i,
      i < rows * cols → i < prev_rows * prev_cols →
      (segment_position cfg mode rows cols (some slide) (some (prev_rows, prev_cols))
        D i t).isSome := by
  constructor
  · exact fun rows cols i => calc_positions_isSome cfg mode rows cols i
  · intro rows cols prev_rows prev_cols slide D t i hi hip
    obtain ⟨endP, hEnd⟩ := calc_positions_some cfg mode hi
    unfold segment_position
    rw [hEnd]
    have h0 : ¬(prev_rows = 0 ∨ prev_cols = 0) := by
      rintro (h | h) <;> subst h <;> simp at hip
    simp only
    rw [if_neg h0, if_neg (not_le.2 hip)]
    obtain ⟨p, hp⟩ := calc_positions_some cfg mode hip
    rw [hp]
    simp

/-- Witness for C10: the persisting cell 0 of the 1x1 → 2x2 transition
resolves to a defined position. -/
theorem persisting_lookup_total_witness :
    (segment_position cfgDefault "even" 2 2 (some .right) (some (1, 1))
      (3 / 2) 0 (1 / 2)).isSome :=
  (persisting_lookup_total cfgDefault "even").2 2 2 1 1 .right (3 / 2) (1 / 2) 0
    (by norm_num) (by norm_num)
